import Mathlib

/-!
Verification of the request-context propagation and span-decoration subsystem
of the heimdall-python SDK (`src/hmdl/context.py`, `src/hmdl/decorators.py`,
`src/hmdl/client.py`), as a shallow embedding in Lean 4.

Python values decoded from JSON, Python exceptions, and the relevant library
primitives (`base64.urlsafe_b64decode`, `bytes.decode("utf-8")`, `json.loads`,
`json.dumps`) are modelled executably; all definitions are structurally
recursive so concrete runs reduce by `rfl`/`decide`.
-/

/-- Python exception, identified by its type name and message. -/
structure PyErr where
  ty : String
  msg : String
deriving DecidableEq, Repr

/-- Python value as produced by `json.loads`, plus `custom` for opaque
application objects passed through decorated calls: a `custom` carries the
string its `str()` conversion would produce, or the error that conversion
raises (`Option.none` in the second field means `str()` succeeds). -/
inductive PyValue where
  | none : PyValue
  | bool : Bool → PyValue
  | int : Int → PyValue
  | float : String → PyValue
  | str : String → PyValue
  | list : List PyValue → PyValue
  | dict : List (String × PyValue) → PyValue
  | custom : String → Option PyErr → PyValue

/-! ## Generic helpers (structural, kernel-reducible) -/

/-- Lowercase one ASCII character, as Python `str.lower` does on ASCII input. -/
def lowerChar (c : Char) : Char :=
  if 'A' ≤ c ∧ c ≤ 'Z' then Char.ofNat (c.toNat + 32) else c

/-- Lowercase a string (ASCII), modelling Python `str.lower` on the ASCII
header and token material this subsystem handles. -/
def lowerStr (s : String) : String :=
  String.mk (s.data.map lowerChar)

/-- Whether `pre` is an initial segment of `l`. -/
def leadsWith : List Char → List Char → Bool
  | [], _ => true
  | _ :: _, [] => false
  | p :: ps, c :: cs => p = c && leadsWith ps cs

/-- Python substring test `needle in haystack` on strings. -/
def strContainsSub (haystack needle : String) : Bool :=
  (List.range (haystack.data.length + 1)).any
    (fun i => leadsWith needle.data (haystack.data.drop i))

/-- Split a character list on a separator character; mirrors Python
`str.split(sep)` (so the empty input yields one empty piece). -/
def splitOnChar (sep : Char) : List Char → List (List Char)
  | [] => [[]]
  | c :: cs =>
    let rest := splitOnChar sep cs
    if c = sep then
      [] :: rest
    else
      match rest with
      | piece :: more => (c :: piece) :: more
      | [] => [[c]]

/-- Python `token.split(".")`. -/
def splitDots (s : String) : List String :=
  (splitOnChar '.' s.data).map String.mk

/-- Lookup in an association list where the *last* binding for a key wins,
matching Python dict semantics under repeated assignment. -/
def lastLookup {α : Type} (l : List (String × α)) (k : String) : Option α :=
  match l with
  | [] => Option.none
  | kv :: rest =>
    match lastLookup rest k with
    | some v => some v
    | Option.none => if kv.1 = k then some kv.2 else Option.none

/-! ## base64url (models `base64.urlsafe_b64decode`)

Strict alphabet model: decoding fails on any character outside the URL-safe
base64 alphabet (CPython discards a few foreign characters before decoding;
no token in the claims contains such characters). -/

/-- Index of a character in the URL-safe base64 alphabet. -/
def b64Index (c : Char) : Option Nat :=
  if 'A' ≤ c ∧ c ≤ 'Z' then some (c.toNat - 65)
  else if 'a' ≤ c ∧ c ≤ 'z' then some (c.toNat - 97 + 26)
  else if '0' ≤ c ∧ c ≤ '9' then some (c.toNat - 48 + 52)
  else if c = '-' then some 62
  else if c = '_' then some 63
  else Option.none

/-- Decode base64url four characters at a time; `=` padding is accepted only
at the very end. Bytes are `Nat` values below 256. -/
def b64DecodeGroups : List Char → Option (List Nat)
  | [] => some []
  | c1 :: c2 :: c3 :: c4 :: rest =>
    match b64Index c1, b64Index c2 with
    | some i1, some i2 =>
      if c3 = '=' then
        if c4 = '=' ∧ rest = [] then
          some [(i1 * 64 + i2) / 16]
        else Option.none
      else
        match b64Index c3 with
        | some i3 =>
          if c4 = '=' then
            if rest = [] then
              some [((i1 * 64 + i2) * 64 + i3) / 1024,
                    ((i1 * 64 + i2) * 64 + i3) / 4 % 256]
            else Option.none
          else
            match b64Index c4 with
            | some i4 =>
              match b64DecodeGroups rest with
              | some bytes =>
                let n := ((i1 * 64 + i2) * 64 + i3) * 64 + i4
                some ([n / 65536, n / 256 % 256, n % 256] ++ bytes)
              | Option.none => Option.none
            | Option.none => Option.none
        | Option.none => Option.none
    | _, _ => Option.none
  | _ => Option.none

/-! ## UTF-8 decoding (models `bytes.decode("utf-8")` as used by `json.loads`) -/

/-- Whether a byte is a UTF-8 continuation byte. -/
def isCont (b : Nat) : Bool := 0x80 ≤ b ∧ b < 0xC0

/-- Decode a UTF-8 byte sequence to characters; fails on malformed input. -/
def utf8Decode : List Nat → Option (List Char)
  | [] => some []
  | b :: rest =>
    if b < 0x80 then
      match utf8Decode rest with
      | some cs => some (Char.ofNat b :: cs)
      | Option.none => Option.none
    else if 0xC2 ≤ b ∧ b ≤ 0xDF then
      match rest with
      | b2 :: rest2 =>
        if isCont b2 then
          match utf8Decode rest2 with
          | some cs => some (Char.ofNat ((b - 0xC0) * 64 + (b2 - 0x80)) :: cs)
          | Option.none => Option.none
        else Option.none
      | [] => Option.none
    else if 0xE0 ≤ b ∧ b ≤ 0xEF then
      match rest with
      | b2 :: b3 :: rest2 =>
        if isCont b2 ∧ isCont b3 then
          let code := (b - 0xE0) * 4096 + (b2 - 0x80) * 64 + (b3 - 0x80)
          if 0x800 ≤ code ∧ ¬ (0xD800 ≤ code ∧ code ≤ 0xDFFF) then
            match utf8Decode rest2 with
            | some cs => some (Char.ofNat code :: cs)
            | Option.none => Option.none
          else Option.none
        else Option.none
      | _ => Option.none
    else if 0xF0 ≤ b ∧ b ≤ 0xF4 then
      match rest with
      | b2 :: b3 :: b4 :: rest2 =>
        if isCont b2 ∧ isCont b3 ∧ isCont b4 then
          let code := (b - 0xF0) * 262144 + (b2 - 0x80) * 4096 +
                      (b3 - 0x80) * 64 + (b4 - 0x80)
          if 0x10000 ≤ code ∧ code ≤ 0x10FFFF then
            match utf8Decode rest2 with
            | some cs => some (Char.ofNat code :: cs)
            | Option.none => Option.none
          else Option.none
        else Option.none
      | _ => Option.none
    else Option.none

/-! ## JSON parsing (models `json.loads`) -/

/-- JSON whitespace. -/
def isJsonWs (c : Char) : Bool := c = ' ' ∨ c = '\t' ∨ c = '\n' ∨ c = '\r'

/-- Skip leading JSON whitespace. -/
def skipWs : List Char → List Char
  | [] => []
  | c :: rest => if isJsonWs c then skipWs rest else c :: rest

/-- Hexadecimal digit value. -/
def hexVal (c : Char) : Option Nat :=
  if '0' ≤ c ∧ c ≤ '9' then some (c.toNat - 48)
  else if 'a' ≤ c ∧ c ≤ 'f' then some (c.toNat - 97 + 10)
  else if 'A' ≤ c ∧ c ≤ 'F' then some (c.toNat - 65 + 10)
  else Option.none

/-- Parse a JSON string body after the opening quote; returns the content and
the remaining input after the closing quote. Surrogate pairs in `\u` escapes
are combined; a lone surrogate falls back to `Char.ofNat`'s default (it is not
representable as a Lean scalar value). -/
def parseJStr : Nat → List Char → Option (List Char × List Char)
  | 0, _ => Option.none
  | fuel + 1, cs =>
    match cs with
    | [] => Option.none
    | '"' :: rest => some ([], rest)
    | '\\' :: e :: rest =>
      let simple : Option (Char × List Char) :=
        match e with
        | '"' => some ('"', rest)
        | '\\' => some ('\\', rest)
        | '/' => some ('/', rest)
        | 'b' => some (Char.ofNat 8, rest)
        | 'f' => some (Char.ofNat 12, rest)
        | 'n' => some ('\n', rest)
        | 'r' => some ('\r', rest)
        | 't' => some ('\t', rest)
        | _ => Option.none
      (match simple with
       | some (c, rest2) =>
         match parseJStr fuel rest2 with
         | some (body, rem) => some (c :: body, rem)
         | Option.none => Option.none
       | Option.none =>
         if e = 'u' then
           match rest with
           | h1 :: h2 :: h3 :: h4 :: rest2 =>
             match hexVal h1, hexVal h2, hexVal h3, hexVal h4 with
             | some v1, some v2, some v3, some v4 =>
               let code := ((v1 * 16 + v2) * 16 + v3) * 16 + v4
               if 0xD800 ≤ code ∧ code ≤ 0xDBFF then
                 match rest2 with
                 | '\\' :: 'u' :: g1 :: g2 :: g3 :: g4 :: rest3 =>
                   match hexVal g1, hexVal g2, hexVal g3, hexVal g4 with
                   | some w1, some w2, some w3, some w4 =>
                     let lo := ((w1 * 16 + w2) * 16 + w3) * 16 + w4
                     if 0xDC00 ≤ lo ∧ lo ≤ 0xDFFF then
                       let comb := 0x10000 + (code - 0xD800) * 1024 + (lo - 0xDC00)
                       match parseJStr fuel rest3 with
                       | some (body, rem) => some (Char.ofNat comb :: body, rem)
                       | Option.none => Option.none
                     else
                       match parseJStr fuel rest2 with
                       | some (body, rem) => some (Char.ofNat code :: body, rem)
                       | Option.none => Option.none
                   | _, _, _, _ =>
                     match parseJStr fuel rest2 with
                     | some (body, rem) => some (Char.ofNat code :: body, rem)
                     | Option.none => Option.none
                 | _ =>
                   match parseJStr fuel rest2 with
                   | some (body, rem) => some (Char.ofNat code :: body, rem)
                   | Option.none => Option.none
               else
                 match parseJStr fuel rest2 with
                 | some (body, rem) => some (Char.ofNat code :: body, rem)
                 | Option.none => Option.none
             | _, _, _, _ => Option.none
           | _ => Option.none
         else Option.none)
    | c :: rest =>
      if c.toNat < 0x20 then Option.none
      else
        match parseJStr fuel rest with
        | some (body, rem) => some (c :: body, rem)
        | Option.none => Option.none

/-- Take a maximal run of decimal digits. -/
def takeDigits : List Char → List Char × List Char
  | [] => ([], [])
  | c :: rest =>
    if '0' ≤ c ∧ c ≤ '9' then
      let (ds, rem) := takeDigits rest
      (c :: ds, rem)
    else ([], c :: rest)

/-- Numeric value of a digit run. -/
def digitsToNat : List Char → Nat
  | ds => ds.foldl (fun acc c => acc * 10 + (c.toNat - 48)) 0

/-- Parse a JSON number per the grammar Python's `json` uses:
`-?(0|[1-9][0-9]*)(\.[0-9]+)?([eE][+-]?[0-9]+)?`. An integer literal becomes
`PyValue.int`; a literal with a fraction or exponent becomes `PyValue.float`
carrying its lexeme. -/
def parseJNum (cs : List Char) : Option (PyValue × List Char) :=
  let (neg, cs1) : Bool × List Char :=
    match cs with
    | '-' :: rest => (true, rest)
    | _ => (false, cs)
  let (intDigits, cs2) := takeDigits cs1
  if intDigits = [] then Option.none
  else if intDigits.length > 1 ∧ intDigits.headD '0' = '0' then Option.none
  else
    let (fracDigits, cs3) : List Char × List Char :=
      match cs2 with
      | '.' :: rest =>
        let (ds, rem) := takeDigits rest
        if ds = [] then ([], cs2) else (ds, rem)
      | _ => ([], cs2)
    let fracBad : Bool :=
      match cs2 with
      | '.' :: rest => (takeDigits rest).1 = []
      | _ => false
    if fracBad then Option.none
    else
      let (expDigits, cs4, expChars) : List Char × List Char × List Char :=
        match cs3 with
        | e :: rest =>
          if e = 'e' ∨ e = 'E' then
            match rest with
            | s :: rest2 =>
              if s = '+' ∨ s = '-' then
                let (ds, rem) := takeDigits rest2
                (ds, rem, [e, s] ++ ds)
              else
                let (ds, rem) := takeDigits rest
                (ds, rem, [e] ++ ds)
            | [] => ([], cs3, [])
          else ([], cs3, [])
        | [] => ([], cs3, [])
      let hasExpMark : Bool :=
        match cs3 with
        | e :: _ => e = 'e' ∨ e = 'E'
        | [] => false
      if hasExpMark ∧ expDigits = [] then Option.none
      else if fracDigits = [] ∧ expDigits = [] then
        let n : Int := Int.ofNat (digitsToNat intDigits)
        some (PyValue.int (if neg then -n else n), cs2)
      else
        let lexeme := (if neg then ['-'] else []) ++ intDigits ++
          (if fracDigits = [] then [] else '.' :: fracDigits) ++ expChars
        some (PyValue.float (String.mk lexeme), cs4)

mutual
/-- Parse one JSON value (after any whitespace has been skipped). -/
def parseJVal : Nat → List Char → Option (PyValue × List Char)
  | 0, _ => Option.none
  | fuel + 1, cs =>
    match cs with
    | [] => Option.none
    | '{' :: rest =>
      (match skipWs rest with
       | '}' :: rem => some (PyValue.dict [], rem)
       | other => parseJObj fuel other)
    | '[' :: rest =>
      (match skipWs rest with
       | ']' :: rem => some (PyValue.list [], rem)
       | other => parseJArr fuel other)
    | '"' :: rest =>
      (match parseJStr (rest.length + 1) rest with
       | some (body, rem) => some (PyValue.str (String.mk body), rem)
       | Option.none => Option.none)
    | 't' :: 'r' :: 'u' :: 'e' :: rest => some (PyValue.bool true, rest)
    | 'f' :: 'a' :: 'l' :: 's' :: 'e' :: rest => some (PyValue.bool false, rest)
    | 'n' :: 'u' :: 'l' :: 'l' :: rest => some (PyValue.none, rest)
    | 'N' :: 'a' :: 'N' :: rest => some (PyValue.float "nan", rest)
    | 'I' :: 'n' :: 'f' :: 'i' :: 'n' :: 'i' :: 't' :: 'y' :: rest =>
      some (PyValue.float "inf", rest)
    | '-' :: 'I' :: 'n' :: 'f' :: 'i' :: 'n' :: 'i' :: 't' :: 'y' :: rest =>
      some (PyValue.float "-inf", rest)
    | _ => parseJNum cs

/-- Parse the members of a JSON object, positioned at the first key. -/
def parseJObj : Nat → List Char → Option (PyValue × List Char)
  | 0, _ => Option.none
  | fuel + 1, cs =>
    match cs with
    | '"' :: rest =>
      (match parseJStr (rest.length + 1) rest with
       | some (keyBody, afterKey) =>
         (match skipWs afterKey with
          | ':' :: afterColon =>
            (match parseJVal fuel (skipWs afterColon) with
             | some (v, afterVal) =>
               (match skipWs afterVal with
                | ',' :: afterComma =>
                  (match parseJObj fuel (skipWs afterComma) with
                   | some (PyValue.dict entries, rem) =>
                     some (PyValue.dict ((String.mk keyBody, v) :: entries), rem)
                   | _ => Option.none)
                | '}' :: rem => some (PyValue.dict [(String.mk keyBody, v)], rem)
                | _ => Option.none)
             | Option.none => Option.none)
          | _ => Option.none)
       | Option.none => Option.none)
    | _ => Option.none

/-- Parse the elements of a JSON array, positioned at the first element. -/
def parseJArr : Nat → List Char → Option (PyValue × List Char)
  | 0, _ => Option.none
  | fuel + 1, cs =>
    match parseJVal fuel cs with
    | some (v, afterVal) =>
      (match skipWs afterVal with
       | ',' :: afterComma =>
         (match parseJArr fuel (skipWs afterComma) with
          | some (PyValue.list items, rem) => some (PyValue.list (v :: items), rem)
          | _ => Option.none)
       | ']' :: rem => some (PyValue.list [v], rem)
       | _ => Option.none)
    | Option.none => Option.none
end

/-- Parse a complete JSON document from characters (models `json.loads` on a
string: one value, surrounded by optional whitespace, nothing trailing). -/
def jsonLoads (cs : List Char) : Option PyValue :=
  match parseJVal (4 * cs.length + 16) (skipWs cs) with
  | some (v, rest) => if skipWs rest = [] then some v else Option.none
  | Option.none => Option.none

/-- Model of `json.loads` applied to bytes: strip a UTF-8 byte-order mark if
present, decode UTF-8, then parse. -/
def pyJsonLoadsBytes (bs : List Nat) : Option PyValue :=
  let stripped : List Nat :=
    match bs with
    | 0xEF :: 0xBB :: 0xBF :: rest => rest
    | _ => bs
  match utf8Decode stripped with
  | some cs => jsonLoads cs
  | Option.none => Option.none

/-! ## JWT claim decoding (`src/hmdl/context.py`, `parse_jwt_claims` /
`extract_user_id_from_token`) -/

/-- Strip an optional case-insensitive `"Bearer "` prefix
(`if token.lower().startswith("bearer "): token = token[7:]`). -/
def stripBearer (token : String) : String :=
  if leadsWith "bearer ".data (lowerStr token).data then
    String.mk (token.data.drop 7)
  else token

/-- Re-add base64url padding
(`padding = 4 - len(payload) % 4; if padding != 4: payload += "=" * padding`). -/
def padB64 (p : String) : String :=
  let padding := 4 - p.data.length % 4
  if padding ≠ 4 then String.mk (p.data ++ List.replicate padding '=') else p

/-- The payload segment of a token: `parts = token.split(".")` must have
exactly three parts, of which the middle one is returned. -/
def payloadSeg (token : String) : Option String :=
  match splitDots (stripBearer token) with
  | [_, p, _] => some p
  | _ => Option.none

/-- The successfully decoded JSON payload of a token, if every step of
`parse_jwt_claims` succeeds: segment split, base64url decode of the padded
payload, UTF-8 decode, JSON parse. -/
def jwtPayloadValue (token : String) : Option PyValue :=
  match payloadSeg token with
  | some p =>
    (match b64DecodeGroups (padB64 p).data with
     | some bytes => pyJsonLoadsBytes bytes
     | Option.none => Option.none)
  | Option.none => Option.none

/-- Embeds `parse_jwt_claims`: any failure inside the `try` block yields `{}`;
a successful `json.loads` result is returned as-is (even when it is not a
dict). -/
def parse_jwt_claims (token : String) : PyValue :=
  match jwtPayloadValue token with
  | some v => v
  | Option.none => PyValue.dict []

/-- Python membership test `key in container` for a string key, with the
`TypeError` Python raises on non-container values. -/
def pyContains (container : PyValue) (key : String) : Except PyErr Bool :=
  match container with
  | PyValue.dict d => Except.ok (d.any (fun kv => kv.1 = key))
  | PyValue.str s => Except.ok (strContainsSub s key)
  | PyValue.list l =>
    Except.ok (l.any (fun v => match v with | PyValue.str s => s = key | _ => false))
  | PyValue.int _ => Except.error ⟨"TypeError", "argument of type int is not iterable"⟩
  | PyValue.float _ => Except.error ⟨"TypeError", "argument of type float is not iterable"⟩
  | PyValue.bool _ => Except.error ⟨"TypeError", "argument of type bool is not iterable"⟩
  | PyValue.none => Except.error ⟨"TypeError", "argument of type NoneType is not iterable"⟩
  | PyValue.custom _ _ => Except.error ⟨"TypeError", "argument of type object is not iterable"⟩

/-- Python subscript `container[key]` for a string key. -/
def pySubscript (container : PyValue) (key : String) : Except PyErr PyValue :=
  match container with
  | PyValue.dict d =>
    (match lastLookup d key with
     | some v => Except.ok v
     | Option.none => Except.error ⟨"KeyError", key⟩)
  | PyValue.str _ => Except.error ⟨"TypeError", "string indices must be integers"⟩
  | PyValue.list _ =>
    Except.error ⟨"TypeError", "list indices must be integers or slices, not str"⟩
  | _ => Except.error ⟨"TypeError", "object is not subscriptable"⟩

/-- The fixed claim-name priority list of `extract_user_id_from_token`. -/
def userClaimKeys : List String := ["sub", "user_id", "userId", "uid", "user"]

/-- The probe loop of `extract_user_id_from_token`:
`for claim_name in (...): if claim_name in claims: value = claims[claim_name];
if isinstance(value, str) and value: return value`. An exception from the
membership test or the subscript propagates. -/
def probeClaims (claims : PyValue) : List String → Except PyErr (Option String)
  | [] => Except.ok Option.none
  | k :: rest =>
    match pyContains claims k with
    | Except.error e => Except.error e
    | Except.ok true =>
      (match pySubscript claims k with
       | Except.error e => Except.error e
       | Except.ok (PyValue.str s) =>
         if s ≠ "" then Except.ok (some s) else probeClaims claims rest
       | Except.ok _ => probeClaims claims rest)
    | Except.ok false => probeClaims claims rest

/-- Embeds `extract_user_id_from_token`. -/
def extract_user_id_from_token (token : String) : Except PyErr (Option String) :=
  probeClaims (parse_jwt_claims token) userClaimKeys


/-! ## MCP request context (`src/hmdl/context.py`) -/

/-- Embeds the `MCPRequestContext` dataclass. `token_claims` is whatever
`parse_jwt_claims` returned (a dict in the intended case). -/
structure MCPRequestContext where
  session_id : Option String
  user_id : Option String
  headers : List (String × String)
  token_claims : PyValue

/-- Python truthiness of an optional string (`None` and `""` are falsy). -/
def pyTruthy : Option String → Bool
  | some s => s ≠ ""
  | Option.none => false

/-- Python `a or b` for optional strings: `a` when truthy, else `b`. -/
def pyOr (a b : Option String) : Option String :=
  if pyTruthy a then a else b

/-- Python `dict.get(key)` on a headers mapping (last binding wins). -/
def getHeader (headers : List (String × String)) (k : String) : Option String :=
  lastLookup headers k

/-- The dict comprehension `{k.lower(): v for k, v in headers.items()}`. -/
def lowerKeys (headers : List (String × String)) : List (String × String) :=
  headers.map (fun kv => (lowerStr kv.1, kv.2))

/-- The session-id expression of `create_mcp_context`:
`normalized.get("mcp-session-id") or normalized.get("mcp-session-id") or
headers.get("Mcp-Session-Id")` (the first two lookups coincide because
`MCP_SESSION_ID_HEADER.lower() == "mcp-session-id"`). -/
def sessionIdResolved (headers : List (String × String)) : Option String :=
  let normalized := lowerKeys headers
  pyOr (getHeader normalized "mcp-session-id")
    (pyOr (getHeader normalized "mcp-session-id")
      (getHeader headers "Mcp-Session-Id"))

/-- The authorization-header expression of `create_mcp_context`. -/
def authHeaderResolved (headers : List (String × String)) : Option String :=
  let normalized := lowerKeys headers
  pyOr (getHeader normalized "authorization")
    (pyOr (getHeader normalized "authorization")
      (getHeader headers "Authorization"))

/-- Embeds `create_mcp_context`. The result is fallible because
`extract_user_id_from_token` is called outside any exception handler and can
raise on a token whose payload is valid JSON but not an object. -/
def create_mcp_context (headers : List (String × String)) :
    Except PyErr MCPRequestContext :=
  let session_id := sessionIdResolved headers
  match authHeaderResolved headers with
  | some a =>
    if a ≠ "" then
      match extract_user_id_from_token a with
      | Except.error e => Except.error e
      | Except.ok uid =>
        Except.ok ⟨session_id, uid, headers, parse_jwt_claims a⟩
    else Except.ok ⟨session_id, Option.none, headers, PyValue.dict []⟩
  | Option.none => Except.ok ⟨session_id, Option.none, headers, PyValue.dict []⟩

/-! ## Scope manager (`mcp_context` context manager, `_mcp_context` ContextVar)

The ambient `ContextVar` holding the current `MCPRequestContext` is modelled
as an explicit `Option MCPRequestContext` state threaded through enter/exit;
a `contextvars` `Token` is the variable's value saved at `set` time. -/

/-- Embeds an `mcp_context` instance: `_ctx` chosen by `__init__`, `_token`
still unset (`None`) until `__enter__` runs. -/
structure McpContextMgr where
  ctxField : Option MCPRequestContext
  tokenField : Option (Option MCPRequestContext)

/-- Embeds `mcp_context.__init__(headers=None, ctx=None)`: an explicit context
wins, else headers are built into one, else `_ctx` is `None`. Building from
headers can propagate a `TypeError` out of `create_mcp_context`. -/
def mcp_context_init (headers : Option (List (String × String)))
    (ctx : Option MCPRequestContext) : Except PyErr McpContextMgr :=
  match ctx with
  | some c => Except.ok ⟨some c, Option.none⟩
  | Option.none =>
    match headers with
    | some h =>
      (match create_mcp_context h with
       | Except.ok c => Except.ok ⟨some c, Option.none⟩
       | Except.error e => Except.error e)
    | Option.none => Except.ok ⟨Option.none, Option.none⟩

/-- Embeds `mcp_context.__enter__`: `self._token = _mcp_context.set(self._ctx)`
then `return self._ctx`. Returns the updated manager, the new ambient value,
and the value the `with` statement binds. -/
def mcp_context_enter (m : McpContextMgr) (ambient : Option MCPRequestContext) :
    McpContextMgr × Option MCPRequestContext × Option MCPRequestContext :=
  (⟨m.ctxField, some ambient⟩, m.ctxField, m.ctxField)

/-- Embeds `mcp_context.__exit__`: `if self._token is not None:
_mcp_context.reset(self._token)` — restore the value saved in the token,
leaving the ambient state unchanged when `__enter__` never ran. -/
def mcp_context_exit (m : McpContextMgr) (ambient : Option MCPRequestContext) :
    Option MCPRequestContext :=
  match m.tokenField with
  | some saved => saved
  | Option.none => ambient

/-- Enter a nested sequence of scopes (each freshly initialised with the given
`_ctx` value, outermost first). Returns the ambient value after all enters and
the post-enter managers, innermost first — the order `__exit__` runs. -/
def entersRun (ambient : Option MCPRequestContext) :
    List (Option MCPRequestContext) → Option MCPRequestContext × List McpContextMgr
  | [] => (ambient, [])
  | c :: cs =>
    let step := mcp_context_enter ⟨c, Option.none⟩ ambient
    let inner := entersRun step.2.1 cs
    (inner.1, inner.2 ++ [step.1])

/-- Exit a list of scopes in order (innermost first), starting from the given
ambient value. -/
def exitsRun (ms : List McpContextMgr) (ambient : Option MCPRequestContext) :
    Option MCPRequestContext :=
  ms.foldl (fun cur m => mcp_context_exit m cur) ambient

/-! ## Serialization (`src/hmdl/decorators.py`, `_serialize_value`) -/

/-- Four lowercase hexadecimal digits of a code point below 2^16. -/
def hex4 (n : Nat) : List Char :=
  let dig := fun m => if m < 10 then Char.ofNat (48 + m) else Char.ofNat (87 + m)
  [dig (n / 4096 % 16), dig (n / 256 % 16), dig (n / 16 % 16), dig (n % 16)]

/-- JSON string encoding used by `json.dumps` (ASCII escaping; exact escape
text is never asserted by a claim). -/
def jsonEscape (s : String) : String :=
  String.mk ('"' :: (s.data.foldr (fun c acc =>
    if c = '"' then '\\' :: '"' :: acc
    else if c = '\\' then '\\' :: '\\' :: acc
    else if c = '\n' then '\\' :: 'n' :: acc
    else if c = '\r' then '\\' :: 'r' :: acc
    else if c = '\t' then '\\' :: 't' :: acc
    else if c.toNat < 0x20 ∨ c.toNat > 0x7E then '\\' :: 'u' :: (hex4 c.toNat ++ acc)
    else c :: acc) ['"']))

/-- Join strings with a separator. -/
def joinSep (sep : String) : List String → String
  | [] => ""
  | [s] => s
  | s :: rest => s ++ sep ++ joinSep sep rest

mutual
/-- Model of `json.dumps(value, default=str)`: structural JSON encoding in
which an unencodable object is replaced by its `str()` conversion (whose
failure propagates). The fuel models Python's recursion limit. -/
def jsonDumpsF : Nat → PyValue → Except PyErr String
  | 0, _ => Except.error ⟨"RecursionError", "maximum recursion depth exceeded"⟩
  | fuel + 1, v =>
    match v with
    | PyValue.none => Except.ok "null"
    | PyValue.bool b => Except.ok (if b then "true" else "false")
    | PyValue.int n => Except.ok (toString n)
    | PyValue.float lexeme => Except.ok lexeme
    | PyValue.str s => Except.ok (jsonEscape s)
    | PyValue.list l =>
      (match jsonDumpsList fuel l with
       | Except.ok parts => Except.ok ("[" ++ joinSep ", " parts ++ "]")
       | Except.error e => Except.error e)
    | PyValue.dict d =>
      (match jsonDumpsEntries fuel d with
       | Except.ok parts => Except.ok ("\x7b" ++ joinSep ", " parts ++ "\x7d")
       | Except.error e => Except.error e)
    | PyValue.custom s strFails =>
      (match strFails with
       | some e => Except.error e
       | Option.none => Except.ok (jsonEscape s))

/-- Encode the elements of a list. -/
def jsonDumpsList : Nat → List PyValue → Except PyErr (List String)
  | 0, _ => Except.error ⟨"RecursionError", "maximum recursion depth exceeded"⟩
  | _ + 1, [] => Except.ok []
  | fuel + 1, v :: rest =>
    match jsonDumpsF fuel v with
    | Except.ok s =>
      (match jsonDumpsList (fuel + 1) rest with
       | Except.ok parts => Except.ok (s :: parts)
       | Except.error e => Except.error e)
    | Except.error e => Except.error e

/-- Encode the entries of a dict. -/
def jsonDumpsEntries : Nat → List (String × PyValue) → Except PyErr (List String)
  | 0, _ => Except.error ⟨"RecursionError", "maximum recursion depth exceeded"⟩
  | _ + 1, [] => Except.ok []
  | fuel + 1, (k, v) :: rest =>
    match jsonDumpsF fuel v with
    | Except.ok s =>
      (match jsonDumpsEntries (fuel + 1) rest with
       | Except.ok parts => Except.ok ((jsonEscape k ++ ": " ++ s) :: parts)
       | Except.error e => Except.error e)
    | Except.error e => Except.error e
end

mutual
/-- Nesting depth of a value, used as serialization fuel. -/
def pyDepth : PyValue → Nat
  | PyValue.list l => pyDepthList l + 1
  | PyValue.dict d => pyDepthEntries d + 1
  | _ => 1

def pyDepthList : List PyValue → Nat
  | [] => 0
  | v :: rest => max (pyDepth v) (pyDepthList rest)

def pyDepthEntries : List (String × PyValue) → Nat
  | [] => 0
  | (_, v) :: rest => max (pyDepth v) (pyDepthEntries rest)
end

/-- Model of `json.dumps(value, default=str)` with ample fuel. -/
def jsonDumps (v : PyValue) : Except PyErr String :=
  jsonDumpsF (pyDepth v + 1) v

mutual
/-- Model of Python `str(value)` on the values a target can return: container
text follows `repr`, and a `custom` object's conversion may raise. The exact
text is never asserted by a claim. -/
def pyStrF : Nat → PyValue → Except PyErr String
  | 0, _ => Except.error ⟨"RecursionError", "maximum recursion depth exceeded"⟩
  | fuel + 1, v =>
    match v with
    | PyValue.none => Except.ok "None"
    | PyValue.bool b => Except.ok (if b then "True" else "False")
    | PyValue.int n => Except.ok (toString n)
    | PyValue.float lexeme => Except.ok lexeme
    | PyValue.str s => Except.ok s
    | PyValue.list l =>
      (match pyStrList fuel l with
       | Except.ok parts => Except.ok ("[" ++ joinSep ", " parts ++ "]")
       | Except.error e => Except.error e)
    | PyValue.dict d =>
      (match pyStrEntries fuel d with
       | Except.ok parts => Except.ok ("\x7b" ++ joinSep ", " parts ++ "\x7d")
       | Except.error e => Except.error e)
    | PyValue.custom s strFails =>
      (match strFails with
       | some e => Except.error e
       | Option.none => Except.ok s)

def pyStrList : Nat → List PyValue → Except PyErr (List String)
  | 0, _ => Except.error ⟨"RecursionError", "maximum recursion depth exceeded"⟩
  | _ + 1, [] => Except.ok []
  | fuel + 1, v :: rest =>
    match pyStrF fuel v with
    | Except.ok s =>
      (match pyStrList (fuel + 1) rest with
       | Except.ok parts => Except.ok (s :: parts)
       | Except.error e => Except.error e)
    | Except.error e => Except.error e

def pyStrEntries : Nat → List (String × PyValue) → Except PyErr (List String)
  | 0, _ => Except.error ⟨"RecursionError", "maximum recursion depth exceeded"⟩
  | _ + 1, [] => Except.ok []
  | fuel + 1, (k, v) :: rest =>
    match pyStrF fuel v with
    | Except.ok s =>
      (match pyStrEntries (fuel + 1) rest with
       | Except.ok parts => Except.ok ((k ++ ": " ++ s) :: parts)
       | Except.error e => Except.error e)
    | Except.error e => Except.error e
end

/-- Model of Python `str(value)`. -/
def pyStr (v : PyValue) : Except PyErr String :=
  pyStrF (pyDepth v + 1) v

/-- Embeds `_serialize_value`: `json.dumps(value, default=str)` with
`except (TypeError, ValueError): return str(value)` — any other exception
(for example one raised by an object's own `str()` conversion) propagates. -/
def serialize_value (v : PyValue) : Except PyErr String :=
  match jsonDumps v with
  | Except.ok s => Except.ok s
  | Except.error e =>
    if e.ty = "TypeError" ∨ e.ty = "ValueError" then pyStr v
    else Except.error e


/-! ## Client-level identity store (`src/hmdl/client.py`) -/

/-- Modelled from the spec: the bodies of `HeimdallClient.get_session_id`,
`set_session_id`, `get_user_id` and `set_user_id` are absent from `src/`
(they are exercised only by `tests/test_client.py` and called from
`decorators.py`); per spec §4.3 they read and write a client/session-level
store of default identity values, initialised from the environment. The store
is modelled as the resolved pair of optional strings. -/
structure ClientStore where
  session_id : Option String
  user_id : Option String
deriving DecidableEq, Repr

/-- Embeds the slice of `HeimdallClient` state the decorators consult. The
tracer itself is opaque to the core; span recording is modelled by the
`SpanLog` the wrapper produces. -/
structure HeimdallClient where
  store : ClientStore
deriving DecidableEq, Repr

/-- Modelled from the spec: `HeimdallClient.get_session_id` returns the value
held in the client-level store (`None` when unset). -/
def get_session_id (c : HeimdallClient) : Option String := c.store.session_id

/-- Modelled from the spec: `HeimdallClient.get_user_id` returns the value
held in the client-level store (`None` when unset). -/
def get_user_id (c : HeimdallClient) : Option String := c.store.user_id

/-! ## Identity resolution (`src/hmdl/decorators.py`) -/

/-- A caller-supplied extractor callback: receives the invocation arguments
(modelled as one `PyValue`) and either returns an optional string or raises. -/
def Extractor : Type := PyValue → Except PyErr (Option String)

/-- The extractor block shared by `_extract_session_id` and
`_extract_user_id`: call the callback if supplied, swallow any exception it
raises, and keep only a truthy result. -/
def extractorResult (ext : Option Extractor) (args : PyValue) : Option String :=
  match ext with
  | some f =>
    (match f args with
     | Except.ok r => if pyTruthy r then r else Option.none
     | Except.error _ => Option.none)
  | Option.none => Option.none

/-- The MCP-context fallback block of `_extract_session_id`:
`ctx = get_mcp_context(); if ctx and ctx.session_id: return ctx.session_id`. -/
def ctxSessionPart (ambient : Option MCPRequestContext) : Option String :=
  match ambient with
  | some ctx => if pyTruthy ctx.session_id then ctx.session_id else Option.none
  | Option.none => Option.none

/-- The MCP-context fallback block of `_extract_user_id`. -/
def ctxUserPart (ambient : Option MCPRequestContext) : Option String :=
  match ambient with
  | some ctx => if pyTruthy ctx.user_id then ctx.user_id else Option.none
  | Option.none => Option.none

/-- Embeds `_extract_session_id`: extractor callback first, then the ambient
MCP context, else `None`. -/
def extract_session_id (ext : Option Extractor) (args : PyValue)
    (ambient : Option MCPRequestContext) : Option String :=
  match extractorResult ext args with
  | some s => some s
  | Option.none => ctxSessionPart ambient

/-- Embeds `_extract_user_id`: extractor callback first, then the ambient MCP
context, else `None`. -/
def extract_user_id (ext : Option Extractor) (args : PyValue)
    (ambient : Option MCPRequestContext) : Option String :=
  match extractorResult ext args with
  | some s => some s
  | Option.none => ctxUserPart ambient

/-- Embeds the wrapper's session resolution (decorators.py lines 195-197):
`session_id = _extract_session_id(...); if not session_id: session_id =
client.get_session_id()`. -/
def resolveSessionId (ext : Option Extractor) (args : PyValue)
    (ambient : Option MCPRequestContext) (c : HeimdallClient) : Option String :=
  let sid := extract_session_id ext args ambient
  if pyTruthy sid then sid else get_session_id c

/-- Embeds the wrapper's user resolution (decorators.py lines 202-204). -/
def resolveUserId (ext : Option Extractor) (args : PyValue)
    (ambient : Option MCPRequestContext) (c : HeimdallClient) : Option String :=
  let uid := extract_user_id ext args ambient
  if pyTruthy uid then uid else get_user_id c

/-! ## Span decoration engine (`src/hmdl/decorators.py`, `sync_wrapped`)

The asynchronous wrapper `async_wrapped` is line-for-line the same logic with
`await func(...)` in place of `func(...)`; this model covers both. -/

/-- A wrapped target: `call` is `func(*args, **kwargs)` (its result or the
exception it raises), `bindArgs` is `_capture_arguments(func, args, kwargs)`
(signature binding with defaults applied, which can raise `TypeError`). -/
structure Target where
  call : PyValue → Except PyErr PyValue
  bindArgs : PyValue → Except PyErr PyValue

/-- Span status as set through `span.set_status`. -/
inductive SpanStatusCode where
  | unset : SpanStatusCode
  | ok : SpanStatusCode
  | error : String → SpanStatusCode
deriving DecidableEq, Repr

/-- Everything the wrapper writes into a span: attributes in write order
(`set_attribute`), the final status (`set_status`), exceptions recorded via
`record_exception`, and whether the `finally` block recorded a duration. -/
structure SpanLog where
  attrs : List (String × String)
  status : SpanStatusCode
  recorded : List PyErr
  durationSet : Bool
deriving DecidableEq, Repr

/-- The per-decorator configuration produced by `_create_span_decorator`. -/
structure DecoratorCfg where
  span_name : String
  span_kind : String
  name_attr : String
  args_attr : String
  result_attr : String
deriving DecidableEq, Repr

/-- Embeds `_record_error`: status attribute, error message and type
attributes, failed span status, recorded exception. -/
def record_error_attrs (e : PyErr) : List (String × String) :=
  [("heimdall.status", "error"),
   ("heimdall.error.message", e.msg),
   ("heimdall.error.type", e.ty)]

/-- Attributes written before the target is invoked (decorators.py lines
190-212): name and kind tags, session id when truthy, user id or
`"anonymous"`, and the bound-argument snapshot whose capture and
serialization failures are swallowed by `except Exception: pass`. -/
def preCallAttrs (cfg : DecoratorCfg) (userExt sessionExt : Option Extractor)
    (c : HeimdallClient) (ambient : Option MCPRequestContext)
    (target : Target) (args : PyValue) : List (String × String) :=
  let a0 := [(cfg.name_attr, cfg.span_name), ("heimdall.span_kind", cfg.span_kind)]
  let sid := resolveSessionId sessionExt args ambient c
  let a1 := a0 ++ (if pyTruthy sid then [("heimdall.session_id", sid.getD "")] else [])
  let uid := resolveUserId userExt args ambient c
  let a2 := a1 ++ [("heimdall.user_id", if pyTruthy uid then uid.getD "" else "anonymous")]
  a2 ++ (match target.bindArgs args with
    | Except.ok bound =>
      (match serialize_value bound with
       | Except.ok s => [(cfg.args_attr, s)]
       | Except.error _ => [])
    | Except.error _ => [])

/-- Embeds the `try/except/finally` around the target call (decorators.py
lines 214-228): on success, record the result snapshot and mark the span ok —
but a failure while serializing that snapshot lands in the same `except`
clause, is recorded via `_record_error` and then re-raised; on target failure,
`_record_error` then re-raise; the `finally` always records a duration. -/
def runPhase (cfg : DecoratorCfg) (pre : List (String × String))
    (callResult : Except PyErr PyValue) : Except PyErr PyValue × SpanLog :=
  match callResult with
  | Except.ok v =>
    (match serialize_value v with
     | Except.ok s =>
       (Except.ok v,
        ⟨pre ++ [(cfg.result_attr, s), ("heimdall.status", "ok")],
         SpanStatusCode.ok, [], true⟩)
     | Except.error e =>
       (Except.error e,
        ⟨pre ++ record_error_attrs e, SpanStatusCode.error e.msg, [e], true⟩))
  | Except.error e =>
    (Except.error e,
     ⟨pre ++ record_error_attrs e, SpanStatusCode.error e.msg, [e], true⟩)

/-- Embeds `sync_wrapped` (and, up to `await`, `async_wrapped`): when no
client is configured (`_get_client()` returns `None`), call the target
directly and return its result unchanged without opening a span; otherwise run
the full instrumented path. The result pairs the caller-visible outcome with
the span contents (`Option.none` when no span was opened). -/
def sync_wrapped (cfg : DecoratorCfg) (userExt sessionExt : Option Extractor)
    (client : Option HeimdallClient) (ambient : Option MCPRequestContext)
    (target : Target) (args : PyValue) :
    Except PyErr PyValue × Option SpanLog :=
  match client with
  | Option.none => (target.call args, Option.none)
  | some c =>
    let pre := preCallAttrs cfg userExt sessionExt c ambient target args
    let outcome := runPhase cfg pre (target.call args)
    (outcome.1, some outcome.2)

/-- Attributes the `observe` wrapper writes before invoking the target. -/
def observePreAttrs (captureInput : Bool) (target : Target) (args : PyValue) :
    List (String × String) :=
  [("heimdall.span_kind", "internal")] ++
    (if captureInput then
      (match target.bindArgs args with
       | Except.ok bound =>
         (match serialize_value bound with
          | Except.ok s => [("heimdall.input", s)]
          | Except.error _ => [])
       | Except.error _ => [])
     else [])

/-- Embeds the `try/except/finally` of `observe`'s wrappers: the output
snapshot (when capture is enabled) sits inside the same unguarded `try`, so
its serialization failure is recorded and re-raised exactly as in
`sync_wrapped`. -/
def observeRunPhase (pre : List (String × String)) (captureOutput : Bool)
    (callResult : Except PyErr PyValue) : Except PyErr PyValue × SpanLog :=
  match callResult with
  | Except.ok v =>
    if captureOutput then
      match serialize_value v with
      | Except.ok s =>
        (Except.ok v, ⟨pre ++ [("heimdall.output", s)], SpanStatusCode.ok, [], true⟩)
      | Except.error e =>
        (Except.error e,
         ⟨pre ++ record_error_attrs e, SpanStatusCode.error e.msg, [e], true⟩)
    else (Except.ok v, ⟨pre, SpanStatusCode.ok, [], true⟩)
  | Except.error e =>
    (Except.error e,
     ⟨pre ++ record_error_attrs e, SpanStatusCode.error e.msg, [e], true⟩)

/-- Embeds the synchronous (and, up to `await`, asynchronous) wrapper built by
`observe`: pure pass-through when no client is configured, otherwise the
open/record/close path with configurable input/output capture. -/
def observe_wrapped (captureInput captureOutput : Bool)
    (client : Option HeimdallClient) (target : Target) (args : PyValue) :
    Except PyErr PyValue × Option SpanLog :=
  match client with
  | Option.none => (target.call args, Option.none)
  | some _ =>
    let pre := observePreAttrs captureInput target args
    let outcome := observeRunPhase pre captureOutput (target.call args)
    (outcome.1, some outcome.2)

/-! ## Definitions used by the claim statements -/

/-- Modelled from the spec's words (§4.1): probe the claim keys in fixed
priority order and return the first value that is a non-empty string, skipping
keys whose values are absent, empty, or not strings. Stated against the dict
semantics (`lastLookup`) shared with the embedding; compared with the code's
probe loop in the C7 theorem. -/
def specUserIdProbe (d : List (String × PyValue)) : List String → Option String
  | [] => Option.none
  | k :: ks =>
    match lastLookup d k with
    | some (PyValue.str s) => if s ≠ "" then some s else specUserIdProbe d ks
    | _ => specUserIdProbe d ks

/-- The malformed-token categories named by claim C6: empty string, wrong
dot-separated segment count, invalid base64 payload, or a payload whose bytes
do not decode/parse as a structured payload. -/
def malformedToken (t : String) : Prop :=
  t = "" ∨
  payloadSeg t = Option.none ∨
  (∃ p, payloadSeg t = some p ∧ b64DecodeGroups (padB64 p).data = Option.none) ∨
  (∃ p bs, payloadSeg t = some p ∧ b64DecodeGroups (padB64 p).data = some bs ∧
    pyJsonLoadsBytes bs = Option.none)

/-- A three-segment token whose payload is base64url of
`{"sub":"user-123","user_id":"secondary"}` (the spec's C7 scenario). -/
def tokSubSecondary : String :=
  "x.eyJzdWIiOiJ1c2VyLTEyMyIsInVzZXJfaWQiOiJzZWNvbmRhcnkifQ.y"

/-- A three-segment token whose payload is base64url of the JSON string
`"sub rosa"` — syntactically well-formed, valid JSON, not an object. -/
def tokNonObject : String := "x.InN1YiByb3NhIg.y"

/-- A request context as the ambient Scoped Request Context would hold it. -/
def ambCtxW : MCPRequestContext :=
  ⟨some "ctx-session", some "ctx-user", [], PyValue.dict []⟩

/-- A client whose client-level store holds both identity defaults. -/
def clientW : HeimdallClient := ⟨⟨some "client-session", some "client-user"⟩⟩

/-- The configuration `trace_mcp_tool` passes to `_create_span_decorator`,
for a target named `my_tool`. -/
def cfgTool : DecoratorCfg :=
  ⟨"my_tool", "mcp.tool", "mcp.tool.name", "mcp.tool.arguments", "mcp.tool.result"⟩

/-- A target that raises `ValueError("boom")`. -/
def targetBoom : Target :=
  ⟨fun _ => Except.error ⟨"ValueError", "boom"⟩, fun _ => Except.ok (PyValue.dict [])⟩

/-- A target that returns successfully. -/
def targetOkW : Target :=
  ⟨fun _ => Except.ok (PyValue.str "result"), fun _ => Except.ok (PyValue.dict [])⟩

/-- A target whose call succeeds but returns an object whose `str()`
conversion raises `RuntimeError("str explode")` (so `json.dumps(...,
default=str)` raises, and so does the `str(value)` fallback). -/
def badStrTarget : Target :=
  ⟨fun _ => Except.ok (PyValue.custom "unprintable" (some ⟨"RuntimeError", "str explode"⟩)),
   fun _ => Except.ok (PyValue.dict [("x", PyValue.int 1)])⟩

/-- A target whose call succeeds but whose bound-argument snapshot contains an
object whose `str()` conversion raises. -/
def badArgsTarget : Target :=
  ⟨fun _ => Except.ok (PyValue.str "fine"),
   fun _ => Except.ok (PyValue.custom "unprintable" (some ⟨"RuntimeError", "args explode"⟩))⟩

/-! ## Helper lemmas -/

/-- The last binding wins: appending a binding for `k` makes it the lookup
result. -/
theorem lastLookup_append_self {α : Type} (l : List (String × α)) (k : String) (v : α) :
    lastLookup (l ++ [(k, v)]) k = some v := by
  induction l with
  | nil => simp [lastLookup]
  | cons kv rest ih => simp [lastLookup, ih]

/-- `lowerKeys` distributes over append. -/
theorem lowerKeys_append (h t : List (String × String)) :
    lowerKeys (h ++ t) = lowerKeys h ++ lowerKeys t := by
  simp [lowerKeys]

/-- Membership via `any` agrees with `lastLookup` succeeding. -/
theorem lastLookup_isSome {α : Type} (d : List (String × α)) (k : String) :
    (lastLookup d k).isSome = d.any (fun kv => kv.1 = k) := by
  induction d with
  | nil => rfl
  | cons kv rest ih =>
    simp only [lastLookup, List.any_cons]
    cases h : lastLookup rest k with
    | some v =>
      rw [h] at ih
      simp only [Option.isSome_some] at ih
      simp [← ih]
    | none =>
      rw [h] at ih
      simp only [Option.isSome_none] at ih
      by_cases hk : kv.1 = k
      · simp [hk]
      · simp [hk, ← ih]

/-- The probe loop of `extract_user_id_from_token`, on a dict, computes
exactly the spec's priority probe. -/
theorem probe_eq_spec (d : List (String × PyValue)) (ks : List String) :
    probeClaims (PyValue.dict d) ks = Except.ok (specUserIdProbe d ks) := by
  induction ks with
  | nil => rfl
  | cons k rest ih =>
    simp only [probeClaims, pyContains, pySubscript, specUserIdProbe]
    cases h : lastLookup d k with
    | none =>
      have hany : (d.any fun kv => kv.1 = k) = false := by
        rw [← lastLookup_isSome, h]; rfl
      simp [hany, ih]
    | some v =>
      have hany : (d.any fun kv => kv.1 = k) = true := by
        rw [← lastLookup_isSome, h]; rfl
      cases v with
      | str s =>
        by_cases hs : s = ""
        · simp [hany, h, hs, ih]
        · simp [hany, h, hs]
      | none => simp [hany, h, ih]
      | bool b => simp [hany, h, ih]
      | int n => simp [hany, h, ih]
      | float f => simp [hany, h, ih]
      | list l => simp [hany, h, ih]
      | dict dd => simp [hany, h, ih]
      | custom s f => simp [hany, h, ih]

/-- Values produced by the context fallback for session ids are non-empty. -/
theorem ctxSessionPart_ne_empty (am : Option MCPRequestContext) (s : String)
    (h : ctxSessionPart am = some s) : s ≠ "" := by
  cases am with
  | none => simp [ctxSessionPart] at h
  | some ctx =>
    simp only [ctxSessionPart] at h
    by_cases ht : pyTruthy ctx.session_id = true
    · rw [if_pos ht] at h
      rw [h] at ht
      simpa [pyTruthy] using ht
    · rw [if_neg ht] at h
      exact absurd h (by simp)

/-- Values produced by the context fallback for user ids are non-empty. -/
theorem ctxUserPart_ne_empty (am : Option MCPRequestContext) (s : String)
    (h : ctxUserPart am = some s) : s ≠ "" := by
  cases am with
  | none => simp [ctxUserPart] at h
  | some ctx =>
    simp only [ctxUserPart] at h
    by_cases ht : pyTruthy ctx.user_id = true
    · rw [if_pos ht] at h
      rw [h] at ht
      simpa [pyTruthy] using ht
    · rw [if_neg ht] at h
      exact absurd h (by simp)

/-! ## Claim theorems -/

/-- C1: with tracing disabled — no client configured, so `_get_client()`
returns `None` — every decorated wrapper (the MCP decorators' `sync_wrapped` /
`async_wrapped` and `observe`'s wrappers) calls the target directly: the
return value and any raised error are exactly `target.call args` (argument
binding included, since the call shape `func(*args, **kwargs)` is identical),
and no span is opened and no instrumentation runs (`Option.none` log). -/
theorem c1_disabled_passthrough (cfg : DecoratorCfg)
    (userExt sessionExt : Option Extractor) (ambient : Option MCPRequestContext)
    (target : Target) (args : PyValue) (captureInput captureOutput : Bool) :
    sync_wrapped cfg userExt sessionExt Option.none ambient target args
      = (target.call args, Option.none) ∧
    observe_wrapped captureInput captureOutput Option.none target args
      = (target.call args, Option.none) :=
  ⟨rfl, rfl⟩

/-- C2 counterexample: with no extractor supplied, an ambient context holding
`ctx-session`/`ctx-user`, and a client-level store holding
`client-session`/`client-user`, the wrapper resolves the *context* values —
the claim's order (store before context) predicts the store values, so the
claim as stated is false at this input. The span attributes of a full
`sync_wrapped` run confirm it. -/
theorem c2_counterexample_context_wins :
    resolveSessionId Option.none (PyValue.dict []) (some ambCtxW) clientW
      = some "ctx-session" ∧
    resolveUserId Option.none (PyValue.dict []) (some ambCtxW) clientW
      = some "ctx-user" ∧
    (some "ctx-session" : Option String) ≠ some "client-session" ∧
    (some "ctx-user" : Option String) ≠ some "client-user" ∧
    (((sync_wrapped cfgTool Option.none Option.none (some clientW) (some ambCtxW)
        targetOkW (PyValue.dict [])).2).getD ⟨[], SpanStatusCode.unset, [], false⟩).attrs.contains
      ("heimdall.session_id", "ctx-session") = true := by
  refine ⟨rfl, rfl, by decide, by decide, by rfl⟩

/-- C2 (amended): when the extractor is absent, yields no truthy value, or
raises, the wrapper resolves each of session id and user id by falling back
*first* to the ambient Scoped Request Context's value and, only failing that,
to the client-level store's value. -/
theorem c2_fallback_order_amended (ext : Option Extractor) (args : PyValue)
    (ambient : Option MCPRequestContext) (c : HeimdallClient)
    (hs : extractorResult ext args = Option.none) :
    (∀ s, ctxSessionPart ambient = some s →
      resolveSessionId ext args ambient c = some s) ∧
    (ctxSessionPart ambient = Option.none →
      resolveSessionId ext args ambient c = get_session_id c) ∧
    (∀ s, ctxUserPart ambient = some s →
      resolveUserId ext args ambient c = some s) ∧
    (ctxUserPart ambient = Option.none →
      resolveUserId ext args ambient c = get_user_id c) := by
  refine ⟨?_, ?_, ?_, ?_⟩
  · intro s h
    have hne := ctxSessionPart_ne_empty ambient s h
    simp [resolveSessionId, extract_session_id, hs, h, pyTruthy, hne]
  · intro h
    simp [resolveSessionId, extract_session_id, hs, h, pyTruthy]
  · intro s h
    have hne := ctxUserPart_ne_empty ambient s h
    simp [resolveUserId, extract_user_id, hs, h, pyTruthy, hne]
  · intro h
    simp [resolveUserId, extract_user_id, hs, h, pyTruthy]

/-- C2 witness: the amended fallback order evaluated at a concrete input. -/
theorem c2_fallback_order_witness :
    resolveSessionId Option.none (PyValue.dict []) (some ambCtxW) clientW
      = some "ctx-session" :=
  (c2_fallback_order_amended Option.none (PyValue.dict []) (some ambCtxW) clientW
    rfl).1 "ctx-session" rfl

/-- C3: at the failing input — a target whose call succeeds but whose result's
`str()` conversion raises — the decorated call under active tracing surfaces
the serialization error (`RuntimeError("str explode")`) instead of the
target's successful result: the result-snapshot `set_attribute` sits inside
the unguarded `try`, so its failure is caught by `except Exception`, recorded
via `_record_error`, and re-raised. By contrast the argument-snapshot failure
(last conjunct) is swallowed by its own `except Exception: pass`. -/
theorem c3_result_serialization_error_surfaces :
    badStrTarget.call (PyValue.dict [])
      = Except.ok (PyValue.custom "unprintable" (some ⟨"RuntimeError", "str explode"⟩)) ∧
    (sync_wrapped cfgTool Option.none Option.none (some clientW) Option.none
        badStrTarget (PyValue.dict [])).1
      = Except.error ⟨"RuntimeError", "str explode"⟩ ∧
    (sync_wrapped cfgTool Option.none Option.none (some clientW) Option.none
        badArgsTarget (PyValue.dict [])).1
      = Except.ok (PyValue.str "fine") :=
  ⟨rfl, rfl, rfl⟩

/-- C4: for every exception the wrapped target raises under active tracing,
the wrapper records the error message and kind as span attributes, marks the
span status failed, records the exception, and re-raises the identical error
(same type and message) to the caller. -/
theorem c4_error_transparency (cfg : DecoratorCfg)
    (userExt sessionExt : Option Extractor) (c : HeimdallClient)
    (ambient : Option MCPRequestContext) (target : Target) (args : PyValue)
    (e : PyErr) (h : target.call args = Except.error e) :
    (sync_wrapped cfg userExt sessionExt (some c) ambient target args).1
      = Except.error e ∧
    ∃ log, (sync_wrapped cfg userExt sessionExt (some c) ambient target args).2
        = some log ∧
      ("heimdall.error.message", e.msg) ∈ log.attrs ∧
      ("heimdall.error.type", e.ty) ∈ log.attrs ∧
      ("heimdall.status", "error") ∈ log.attrs ∧
      log.status = SpanStatusCode.error e.msg ∧
      e ∈ log.recorded := by
  have hall : sync_wrapped cfg userExt sessionExt (some c) ambient target args
      = (Except.error e,
         some ⟨preCallAttrs cfg userExt sessionExt c ambient target args
            ++ record_error_attrs e, SpanStatusCode.error e.msg, [e], true⟩) := by
    simp only [sync_wrapped]
    rw [h]
    rfl
  rw [hall]
  refine ⟨rfl, ⟨_, rfl, ?_, ?_, ?_, rfl, ?_⟩⟩
  · simp [record_error_attrs]
  · simp [record_error_attrs]
  · simp [record_error_attrs]
  · simp

/-- C4 witness: a target raising `ValueError("boom")`, evaluated concretely. -/
theorem c4_error_transparency_witness :
    (sync_wrapped cfgTool Option.none Option.none (some clientW) Option.none
        targetBoom (PyValue.dict [])).1
      = Except.error ⟨"ValueError", "boom"⟩ ∧
    ∃ log, (sync_wrapped cfgTool Option.none Option.none (some clientW) Option.none
        targetBoom (PyValue.dict [])).2 = some log ∧
      ("heimdall.error.message", "boom") ∈ log.attrs ∧
      ("heimdall.error.type", "ValueError") ∈ log.attrs ∧
      ("heimdall.status", "error") ∈ log.attrs ∧
      log.status = SpanStatusCode.error "boom" ∧
      (⟨"ValueError", "boom"⟩ : PyErr) ∈ log.recorded :=
  c4_error_transparency cfgTool Option.none Option.none clientW Option.none
    targetBoom (PyValue.dict []) ⟨"ValueError", "boom"⟩ rfl

/-- C5: scope entry/exit is LIFO on one branch. After entering any sequence
of nested scopes, (a) entering one more scope and exiting it restores exactly
the immediately prior ambient context, and (b) exiting all scopes innermost
first restores the pre-entry ambient value (including `None`), for arbitrary
nesting depth — because each `__enter__` saves the then-current value in its
`contextvars` token and `__exit__` resets to precisely that value. -/
theorem c5_scope_lifo (ambient : Option MCPRequestContext)
    (cs : List (Option MCPRequestContext)) (c : Option MCPRequestContext) :
    mcp_context_exit (mcp_context_enter ⟨c, Option.none⟩ (entersRun ambient cs).1).1
        (mcp_context_enter ⟨c, Option.none⟩ (entersRun ambient cs).1).2.1
      = (entersRun ambient cs).1 ∧
    exitsRun (entersRun ambient cs).2 (entersRun ambient cs).1 = ambient := by
  constructor
  · rfl
  · cases cs with
    | nil => rfl
    | cons c0 rest =>
      simp only [entersRun, mcp_context_enter, exitsRun]
      rw [List.foldl_append]
      rfl

/-- C6: for every malformed token — empty string, wrong segment count,
invalid base64 payload, or bytes that fail structured decoding —
`parse_jwt_claims` returns the empty mapping and `extract_user_id_from_token`
returns `None`; neither raises (both return normally). -/
theorem c6_malformed_token_safe (t : String) (h : malformedToken t) :
    parse_jwt_claims t = PyValue.dict [] ∧
    extract_user_id_from_token t = Except.ok Option.none := by
  have hnone : jwtPayloadValue t = Option.none := by
    rcases h with h | h | ⟨p, h1, h2⟩ | ⟨p, bs, h1, h2, h3⟩
    · subst h; rfl
    · simp [jwtPayloadValue, h]
    · simp [jwtPayloadValue, h1, h2]
    · simp [jwtPayloadValue, h1, h2, h3]
  have hparse : parse_jwt_claims t = PyValue.dict [] := by
    simp [parse_jwt_claims, hnone]
  refine ⟨hparse, ?_⟩
  unfold extract_user_id_from_token
  rw [hparse]
  rfl

/-- C6 witness: the malformed token `"not-a-jwt"` (wrong segment count). -/
theorem c6_malformed_token_safe_witness :
    malformedToken "not-a-jwt" ∧
    parse_jwt_claims "not-a-jwt" = PyValue.dict [] ∧
    extract_user_id_from_token "not-a-jwt" = Except.ok Option.none :=
  ⟨Or.inr (Or.inl rfl),
   c6_malformed_token_safe "not-a-jwt" (Or.inr (Or.inl rfl))⟩

/-- C7: whenever the decoded claims form a mapping, the code's probe loop
returns exactly the spec's fixed-priority probe (`sub`, `user_id`, `userId`,
`uid`, `user`; first non-empty string value wins, other values are skipped);
and on a token encoding `{"sub": "user-123", "user_id": "secondary"}` it
returns `"user-123"`. -/
theorem c7_user_id_priority :
    (∀ (t : String) (d : List (String × PyValue)),
        parse_jwt_claims t = PyValue.dict d →
        extract_user_id_from_token t = Except.ok (specUserIdProbe d userClaimKeys)) ∧
    extract_user_id_from_token tokSubSecondary = Except.ok (some "user-123") := by
  constructor
  · intro t d h
    unfold extract_user_id_from_token
    rw [h]
    exact probe_eq_spec d userClaimKeys
  · rfl

/-- C7 witness: the priority probe evaluated on the scenario token. -/
theorem c7_user_id_priority_witness :
    extract_user_id_from_token tokSubSecondary
      = Except.ok (specUserIdProbe
          [("sub", PyValue.str "user-123"), ("user_id", PyValue.str "secondary")]
          userClaimKeys) :=
  c7_user_id_priority.1 tokSubSecondary
    [("sub", PyValue.str "user-123"), ("user_id", PyValue.str "secondary")] (by rfl)

/-- C8 counterexample: with an *empty* session-header value, the exact casing
`Mcp-Session-Id` yields `sessionId = ""` (through the raw-headers fallback of
the `or` chain) while any other casing yields `None` — so the claim's
"for every case permutation of the key, sessionId is the same" is false at
this input. -/
theorem c8_counterexample_empty_value :
    Except.map MCPRequestContext.session_id
        (create_mcp_context [("Mcp-Session-Id", "")])
      = Except.ok (some "") ∧
    Except.map MCPRequestContext.session_id
        (create_mcp_context [("MCP-SESSION-ID", "")])
      = Except.ok Option.none :=
  ⟨rfl, rfl⟩

/-- C8 (amended): for every header mapping and every case permutation of the
`Mcp-Session-Id` key, *provided its value is non-empty*, the resolved session
id is that value (so it is the same across permutations); and the scenario
headers `{"Mcp-Session-Id": "session-abc123"}` with no Authorization header
produce that session id with `userId = None` and empty claims. -/
theorem c8_session_header_case :
    (∀ (h : List (String × String)) (k1 k2 v : String),
        lowerStr k1 = "mcp-session-id" → lowerStr k2 = "mcp-session-id" →
        v ≠ "" →
        sessionIdResolved (h ++ [(k1, v)]) = some v ∧
        sessionIdResolved (h ++ [(k2, v)]) = some v) ∧
    create_mcp_context [("Mcp-Session-Id", "session-abc123")]
      = Except.ok ⟨some "session-abc123", Option.none,
          [("Mcp-Session-Id", "session-abc123")], PyValue.dict []⟩ := by
  constructor
  · intro h k1 k2 v hk1 hk2 hv
    have key : ∀ k : String, lowerStr k = "mcp-session-id" →
        sessionIdResolved (h ++ [(k, v)]) = some v := by
      intro k hk
      have hlk : getHeader (lowerKeys (h ++ [(k, v)])) "mcp-session-id" = some v := by
        rw [lowerKeys_append]
        show lastLookup (lowerKeys h ++ [(lowerStr k, v)]) "mcp-session-id" = some v
        rw [hk]
        exact lastLookup_append_self _ _ _
      simp only [sessionIdResolved]
      rw [hlk]
      simp [pyOr, pyTruthy, hv]
    exact ⟨key k1 hk1, key k2 hk2⟩
  · rfl

/-- C8 witness: two casings of the session header with the scenario value. -/
theorem c8_session_header_case_witness :
    sessionIdResolved ([] ++ [("MCP-SESSION-ID", "session-abc123")])
      = some "session-abc123" ∧
    sessionIdResolved ([] ++ [("mcp-session-id", "session-abc123")])
      = some "session-abc123" :=
  c8_session_header_case.1 [] "MCP-SESSION-ID" "mcp-session-id" "session-abc123"
    (by rfl) (by rfl) (by decide)

/-- C9: the syntactically well-formed token whose payload is base64url of the
JSON string `"sub rosa"` decodes to that non-mapping value, and
`extract_user_id_from_token` raises `TypeError` on it (the substring test
`"sub" in "sub rosa"` succeeds, then the string subscript raises) instead of
returning `None`. -/
theorem c9_non_object_payload_typeerror :
    parse_jwt_claims tokNonObject = PyValue.str "sub rosa" ∧
    extract_user_id_from_token tokNonObject
      = Except.error ⟨"TypeError", "string indices must be integers"⟩ :=
  ⟨rfl, rfl⟩

/-- C10: a scope manager constructed with neither headers nor an existing
context holds `_ctx = None`; entering it sets the ambient context to `None`
for the scope's duration (hiding any enclosing scope's context, and binding
`None` in the `with` statement), and exiting it restores the enclosing
ambient value whatever the state at exit time. -/
theorem c10_empty_scope_hides_context (ambient current : Option MCPRequestContext) :
    mcp_context_init Option.none Option.none
      = Except.ok ⟨Option.none, Option.none⟩ ∧
    (mcp_context_enter ⟨Option.none, Option.none⟩ ambient).2.1 = Option.none ∧
    (mcp_context_enter ⟨Option.none, Option.none⟩ ambient).2.2 = Option.none ∧
    mcp_context_exit (mcp_context_enter ⟨Option.none, Option.none⟩ ambient).1 current
      = ambient :=
  ⟨rfl, rfl, rfl, rfl⟩
